import Mathlib

/-!
Verification of the `japanese-text` library (src/src/lib.rs).

Strings are modelled as lists of Unicode code points (`List Nat`); each
Rust function over `&str` becomes a function over `List Nat`, translated
arm by arm from the `match` in the source.  `char::from_u32(..).unwrap_or(c)`
is modelled by a validity test on the shifted value with fallback to the
original code point.
-/

namespace JapaneseText

/-- A `Nat` is a valid Unicode scalar value (what `char::from_u32` accepts):
below the surrogate range, or between it and 0x10FFFF. -/
def validScalar (n : Nat) : Prop :=
  n < 0xD800 ∨ (0xE000 ≤ n ∧ n ≤ 0x10FFFF)

instance validScalar.instDecidable (n : Nat) : Decidable (validScalar n) := by
  unfold validScalar
  infer_instance

/-- Per-character action of `to_half_width`: U+3000 to space, U+FF01..U+FF5E
shifted down by 0xFF01-0x0021 (with `unwrap_or` fallback), all else kept. -/
def toHalfWidthChar (c : Nat) : Nat :=
  if c = 0x3000 then 0x20
  else if 0xFF01 ≤ c ∧ c ≤ 0xFF5E then
    if validScalar (c - 0xFF01 + 0x21) then c - 0xFF01 + 0x21 else c
  else c

/-- `to_half_width`: character-wise map over the input. -/
def to_half_width (s : List Nat) : List Nat :=
  s.map toHalfWidthChar

/-- Per-character action of `to_full_width`: space to U+3000, U+0021..U+007E
shifted up by 0xFF01-0x0021 (with `unwrap_or` fallback), all else kept. -/
def toFullWidthChar (c : Nat) : Nat :=
  if c = 0x20 then 0x3000
  else if 0x21 ≤ c ∧ c ≤ 0x7E then
    if validScalar (c - 0x21 + 0xFF01) then c - 0x21 + 0xFF01 else c
  else c

/-- `to_full_width`: character-wise map over the input. -/
def to_full_width (s : List Nat) : List Nat :=
  s.map toFullWidthChar

/-- Per-character action of `to_hiragana`: U+30A1..U+30F6 shifted down by
0x30A1-0x3041 (with `unwrap_or` fallback), all else kept. -/
def toHiraganaChar (c : Nat) : Nat :=
  if 0x30A1 ≤ c ∧ c ≤ 0x30F6 then
    if validScalar (c - 0x30A1 + 0x3041) then c - 0x30A1 + 0x3041 else c
  else c

/-- `to_hiragana`: character-wise map over the input. -/
def to_hiragana (s : List Nat) : List Nat :=
  s.map toHiraganaChar

/-- Per-character action of `to_katakana`: U+3041..U+3096 shifted up by
0x30A1-0x3041 (with `unwrap_or` fallback), all else kept. -/
def toKatakanaChar (c : Nat) : Nat :=
  if 0x3041 ≤ c ∧ c ≤ 0x3096 then
    if validScalar (c - 0x3041 + 0x30A1) then c - 0x3041 + 0x30A1 else c
  else c

/-- `to_katakana`: character-wise map over the input. -/
def to_katakana (s : List Nat) : List Nat :=
  s.map toKatakanaChar

lemma half_of_full_char (c : Nat) (h1 : 0x21 ≤ c) (h2 : c ≤ 0x7E) :
    toHalfWidthChar (toFullWidthChar c) = c := by
  simp only [toFullWidthChar, toHalfWidthChar, validScalar]
  split_ifs <;> omega

lemma full_of_half_char (c : Nat) (h1 : 0xFF01 ≤ c) (h2 : c ≤ 0xFF5E) :
    toFullWidthChar (toHalfWidthChar c) = c := by
  simp only [toFullWidthChar, toHalfWidthChar, validScalar]
  split_ifs <;> omega

/-- C1: for every code point in 0x21..0x7E, converting to full width and back
to half width is the identity; for every code point in 0xFF01..0xFF5E,
converting to half width and back to full width is the identity; the ASCII
space and the ideographic space U+3000 round-trip likewise. -/
theorem c1_width_roundtrip :
    (∀ c : Nat, 0x21 ≤ c → c ≤ 0x7E → to_half_width (to_full_width [c]) = [c]) ∧
    (∀ c : Nat, 0xFF01 ≤ c → c ≤ 0xFF5E → to_full_width (to_half_width [c]) = [c]) ∧
    to_half_width (to_full_width [0x20]) = [0x20] ∧
    to_full_width (to_half_width [0x3000]) = [0x3000] := by
  refine ⟨?_, ?_, by decide, by decide⟩
  · intro c h1 h2
    simp only [to_half_width, to_full_width, List.map_cons, List.map_nil,
      List.cons.injEq, and_true]
    exact half_of_full_char c h1 h2
  · intro c h1 h2
    simp only [to_half_width, to_full_width, List.map_cons, List.map_nil,
      List.cons.injEq, and_true]
    exact full_of_half_char c h1 h2

/-- Witness for C1 at the concrete code points 0x41 and 0xFF21. -/
theorem c1_width_roundtrip_witness :
    to_half_width (to_full_width [0x41]) = [0x41] ∧
    to_full_width (to_half_width [0xFF21]) = [0xFF21] :=
  ⟨c1_width_roundtrip.1 0x41 (by decide) (by decide),
   c1_width_roundtrip.2.1 0xFF21 (by decide) (by decide)⟩

lemma katakana_of_hiragana_char (c : Nat) (h1 : 0x3041 ≤ c) (h2 : c ≤ 0x3096) :
    toHiraganaChar (toKatakanaChar c) = c := by
  simp only [toHiraganaChar, toKatakanaChar, validScalar]
  split_ifs <;> omega

lemma hiragana_of_katakana_char (c : Nat) (h1 : 0x30A1 ≤ c) (h2 : c ≤ 0x30F6) :
    toKatakanaChar (toHiraganaChar c) = c := by
  simp only [toHiraganaChar, toKatakanaChar, validScalar]
  split_ifs <;> omega

/-- C2: every katakana code point in U+30A1..U+30F6 round-trips through
`to_hiragana` then `to_katakana`, and every hiragana code point in
U+3041..U+3096 round-trips through `to_katakana` then `to_hiragana`. -/
theorem c2_kana_roundtrip :
    (∀ k : Nat, 0x30A1 ≤ k → k ≤ 0x30F6 → to_katakana (to_hiragana [k]) = [k]) ∧
    (∀ h : Nat, 0x3041 ≤ h → h ≤ 0x3096 → to_hiragana (to_katakana [h]) = [h]) := by
  constructor
  · intro k h1 h2
    simp only [to_katakana, to_hiragana, List.map_cons, List.map_nil,
      List.cons.injEq, and_true]
    exact hiragana_of_katakana_char k h1 h2
  · intro h h1 h2
    simp only [to_katakana, to_hiragana, List.map_cons, List.map_nil,
      List.cons.injEq, and_true]
    exact katakana_of_hiragana_char h h1 h2

/-- Witness for C2 at the concrete code points U+30A2 (katakana A) and
U+3042 (hiragana A). -/
theorem c2_kana_roundtrip_witness :
    to_katakana (to_hiragana [0x30A2]) = [0x30A2] ∧
    to_hiragana (to_katakana [0x3042]) = [0x3042] :=
  ⟨c2_kana_roundtrip.1 0x30A2 (by decide) (by decide),
   c2_kana_roundtrip.2 0x3042 (by decide) (by decide)⟩

/-- `is_hiragana`: U+3041..U+3096. -/
def is_hiragana (c : Nat) : Bool :=
  decide (0x3041 ≤ c ∧ c ≤ 0x3096)

/-- `is_katakana`: U+30A1..U+30F6. -/
def is_katakana (c : Nat) : Bool :=
  decide (0x30A1 ≤ c ∧ c ≤ 0x30F6)

/-- `is_half_width_katakana`: U+FF61..U+FF9F. -/
def is_half_width_katakana (c : Nat) : Bool :=
  decide (0xFF61 ≤ c ∧ c ≤ 0xFF9F)

/-- `is_kanji`: U+4E00..U+9FFF. -/
def is_kanji (c : Nat) : Bool :=
  decide (0x4E00 ≤ c ∧ c ≤ 0x9FFF)

/-- `is_full_width`: U+FF01..U+FF5E or the ideographic space U+3000. -/
def is_full_width (c : Nat) : Bool :=
  decide ((0xFF01 ≤ c ∧ c ≤ 0xFF5E) ∨ c = 0x3000)

/-- `char::is_ascii`: code point at most 0x7F. -/
def isAsciiChar (c : Nat) : Bool :=
  decide (c ≤ 0x7F)

/-- The `CharacterTypes` tally returned by `count_character_types`. -/
structure CharacterTypes where
  hiragana : Nat
  katakana : Nat
  half_width_katakana : Nat
  kanji : Nat
  ascii : Nat
  full_width : Nat
  other : Nat
  deriving DecidableEq

/-- One step of the loop body of `count_character_types`: the if/else-if
chain over the predicates, in source order. -/
def countStep (t : CharacterTypes) (c : Nat) : CharacterTypes :=
  if is_hiragana c then { t with hiragana := t.hiragana + 1 }
  else if is_katakana c then { t with katakana := t.katakana + 1 }
  else if is_half_width_katakana c then
    { t with half_width_katakana := t.half_width_katakana + 1 }
  else if is_kanji c then { t with kanji := t.kanji + 1 }
  else if isAsciiChar c then { t with ascii := t.ascii + 1 }
  else if is_full_width c then { t with full_width := t.full_width + 1 }
  else { t with other := t.other + 1 }

/-- `count_character_types`: fold the loop body over the input, starting
from the all-zero tally. -/
def count_character_types (s : List Nat) : CharacterTypes :=
  s.foldl countStep ⟨0, 0, 0, 0, 0, 0, 0⟩

/-- The seven buckets of the tally. -/
inductive CharBucket where
  | hiragana | katakana | halfWidthKatakana | kanji | ascii | fullWidth | other
  deriving DecidableEq

/-- The bucket a code point falls in, following the priority order of the
if/else-if chain in `count_character_types`. -/
def classify (c : Nat) : CharBucket :=
  if is_hiragana c then .hiragana
  else if is_katakana c then .katakana
  else if is_half_width_katakana c then .halfWidthKatakana
  else if is_kanji c then .kanji
  else if isAsciiChar c then .ascii
  else if is_full_width c then .fullWidth
  else .other

/-- Number of code points of `s` classified into bucket `b`. -/
def bucketCount (s : List Nat) (b : CharBucket) : Nat :=
  s.countP (fun c => decide (classify c = b))

/-- Sum of the seven fields of a tally. -/
def sumCounts (t : CharacterTypes) : Nat :=
  t.hiragana + t.katakana + t.half_width_katakana + t.kanji + t.ascii +
    t.full_width + t.other

lemma bucketCount_nil (b : CharBucket) : bucketCount [] b = 0 := by
  simp [bucketCount]

lemma bucketCount_cons (c : Nat) (s : List Nat) (b : CharBucket) :
    bucketCount (c :: s) b =
      bucketCount s b + if classify c = b then 1 else 0 := by
  simp [bucketCount, List.countP_cons]

lemma countStep_classify (t : CharacterTypes) (c : Nat) :
    countStep t c =
      match classify c with
      | .hiragana => { t with hiragana := t.hiragana + 1 }
      | .katakana => { t with katakana := t.katakana + 1 }
      | .halfWidthKatakana =>
          { t with half_width_katakana := t.half_width_katakana + 1 }
      | .kanji => { t with kanji := t.kanji + 1 }
      | .ascii => { t with ascii := t.ascii + 1 }
      | .fullWidth => { t with full_width := t.full_width + 1 }
      | .other => { t with other := t.other + 1 } := by
  unfold countStep classify
  split_ifs <;> rfl

lemma foldl_countStep (s : List Nat) : ∀ t : CharacterTypes,
    s.foldl countStep t =
      ⟨t.hiragana + bucketCount s .hiragana,
       t.katakana + bucketCount s .katakana,
       t.half_width_katakana + bucketCount s .halfWidthKatakana,
       t.kanji + bucketCount s .kanji,
       t.ascii + bucketCount s .ascii,
       t.full_width + bucketCount s .fullWidth,
       t.other + bucketCount s .other⟩ := by
  induction s with
  | nil =>
    intro t
    simp [bucketCount_nil]
  | cons c s ih =>
    intro t
    rw [List.foldl_cons, ih, countStep_classify]
    cases hc : classify c <;>
      simp [bucketCount_cons, hc] <;> omega

lemma bucketCount_total (s : List Nat) :
    bucketCount s .hiragana + bucketCount s .katakana +
      bucketCount s .halfWidthKatakana + bucketCount s .kanji +
      bucketCount s .ascii + bucketCount s .fullWidth +
      bucketCount s .other = s.length := by
  induction s with
  | nil => simp [bucketCount]
  | cons c s ih =>
    simp only [bucketCount, List.countP_cons, List.length_cons] at *
    cases hc : classify c <;> simp [hc] <;> omega

/-- C3: the seven fields of `count_character_types s` sum to the number of
code points of `s`, and each field counts exactly the code points that the
priority chain hiragana, katakana, half-width katakana, kanji, ASCII,
full-width, other assigns to that bucket. -/
theorem c3_count_partition (s : List Nat) :
    sumCounts (count_character_types s) = s.length ∧
    count_character_types s =
      ⟨bucketCount s .hiragana, bucketCount s .katakana,
       bucketCount s .halfWidthKatakana, bucketCount s .kanji,
       bucketCount s .ascii, bucketCount s .fullWidth,
       bucketCount s .other⟩ := by
  have h := foldl_countStep s ⟨0, 0, 0, 0, 0, 0, 0⟩
  simp only [Nat.zero_add] at h
  refine ⟨?_, h⟩
  rw [count_character_types, h, sumCounts]
  exact bucketCount_total s

/-- C4: the four script predicates are pairwise exclusive: no code point
satisfies two of `is_hiragana`, `is_katakana`, `is_half_width_katakana`,
`is_kanji` at once. -/
theorem c4_predicates_disjoint (c : Nat) :
    (is_hiragana c && is_katakana c) = false ∧
    (is_hiragana c && is_half_width_katakana c) = false ∧
    (is_hiragana c && is_kanji c) = false ∧
    (is_katakana c && is_half_width_katakana c) = false ∧
    (is_katakana c && is_kanji c) = false ∧
    (is_half_width_katakana c && is_kanji c) = false := by
  simp only [is_hiragana, is_katakana, is_half_width_katakana, is_kanji,
    Bool.and_eq_false_iff, decide_eq_false_iff_not, not_and, not_le]
  omega

lemma toHalfWidthChar_toFullWidthChar (c : Nat) :
    toHalfWidthChar (toFullWidthChar c) = toHalfWidthChar c := by
  simp only [toHalfWidthChar, toFullWidthChar, validScalar]
  split_ifs <;> omega

lemma toFullWidthChar_toHalfWidthChar (c : Nat) :
    toFullWidthChar (toHalfWidthChar c) = toFullWidthChar c := by
  simp only [toHalfWidthChar, toFullWidthChar, validScalar]
  split_ifs <;> omega

lemma toHalfWidthChar_idem (c : Nat) :
    toHalfWidthChar (toHalfWidthChar c) = toHalfWidthChar c := by
  simp only [toHalfWidthChar, validScalar]
  split_ifs <;> omega

lemma toFullWidthChar_idem (c : Nat) :
    toFullWidthChar (toFullWidthChar c) = toFullWidthChar c := by
  simp only [toFullWidthChar, validScalar]
  split_ifs <;> omega

lemma toHalfWidthChar_of_unmapped (c : Nat) (h1 : c ≠ 0x3000)
    (h2 : ¬(0xFF01 ≤ c ∧ c ≤ 0xFF5E)) : toHalfWidthChar c = c := by
  simp only [toHalfWidthChar, validScalar]
  split_ifs <;> omega

lemma toFullWidthChar_of_unmapped (c : Nat) (h1 : c ≠ 0x20)
    (h2 : ¬(0x21 ≤ c ∧ c ≤ 0x7E)) : toFullWidthChar c = c := by
  simp only [toFullWidthChar, validScalar]
  split_ifs <;> omega

/-- C5 counterexample: the code point 0x21 is left unchanged by the
first-applied `to_half_width` (it is outside that function's mapped subset),
yet applying `to_full_width` afterwards does not return it: the composition
maps it to U+FF01. -/
theorem c5_counterexample :
    to_half_width [0x21] = [0x21] ∧
    to_full_width (to_half_width [0x21]) ≠ [0x21] := by
  decide

/-- C5 amended: composing `to_half_width` and `to_full_width` in either
order is idempotent on every input, and every character outside BOTH mapped
subsets (not the two spaces, not 0x21..0x7E, not 0xFF01..0xFF5E) passes
through both compositions unchanged.  (A character outside only the
first-applied function's subset may still be changed by the second
function, as `c5_counterexample` shows.) -/
theorem c5_roundtrip_amended :
    (∀ s : List Nat,
      to_half_width (to_full_width (to_half_width (to_full_width s))) =
        to_half_width (to_full_width s)) ∧
    (∀ s : List Nat,
      to_full_width (to_half_width (to_full_width (to_half_width s))) =
        to_full_width (to_half_width s)) ∧
    (∀ c : Nat, c ≠ 0x20 → c ≠ 0x3000 →
      ¬(0x21 ≤ c ∧ c ≤ 0x7E) → ¬(0xFF01 ≤ c ∧ c ≤ 0xFF5E) →
      to_half_width (to_full_width [c]) = [c] ∧
        to_full_width (to_half_width [c]) = [c]) := by
  refine ⟨?_, ?_, ?_⟩
  · intro s
    simp only [to_half_width, to_full_width, List.map_map, Function.comp]
    congr 1
    funext c
    simp only [Function.comp_apply]
    rw [toHalfWidthChar_toFullWidthChar (toHalfWidthChar (toFullWidthChar c)),
      toHalfWidthChar_idem]
  · intro s
    simp only [to_half_width, to_full_width, List.map_map, Function.comp]
    congr 1
    funext c
    simp only [Function.comp_apply]
    rw [toFullWidthChar_toHalfWidthChar (toFullWidthChar (toHalfWidthChar c)),
      toFullWidthChar_idem]
  · intro c h20 h3000 hhalf hfull
    have hH : toHalfWidthChar c = c := toHalfWidthChar_of_unmapped c h3000 hfull
    have hF : toFullWidthChar c = c := toFullWidthChar_of_unmapped c h20 hhalf
    constructor
    · simp only [to_half_width, to_full_width, List.map_cons, List.map_nil, hF, hH]
    · simp only [to_half_width, to_full_width, List.map_cons, List.map_nil, hH, hF]

/-- Witness for C5 (amended) at the concrete code point U+3042, which lies
outside both mapped subsets. -/
theorem c5_roundtrip_amended_witness :
    to_half_width (to_full_width [0x3042]) = [0x3042] ∧
    to_full_width (to_half_width [0x3042]) = [0x3042] :=
  c5_roundtrip_amended.2.2 0x3042 (by decide) (by decide) (by decide) (by decide)

/-- C9: for each of the four fixed shift ranges, the shifted value is a
valid Unicode scalar value, so the `unwrap_or` defensive fallback is
unreachable and each conversion actually performs the shift.  (In this
embedding every function is a total function by construction, matching the
no-panic contract.) -/
theorem c9_shift_fallback_unreachable :
    (∀ c : Nat, 0xFF01 ≤ c → c ≤ 0xFF5E →
      validScalar (c - 0xFF01 + 0x21) ∧ toHalfWidthChar c = c - 0xFF01 + 0x21) ∧
    (∀ c : Nat, 0x21 ≤ c → c ≤ 0x7E →
      validScalar (c - 0x21 + 0xFF01) ∧ toFullWidthChar c = c - 0x21 + 0xFF01) ∧
    (∀ c : Nat, 0x30A1 ≤ c → c ≤ 0x30F6 →
      validScalar (c - 0x30A1 + 0x3041) ∧ toHiraganaChar c = c - 0x30A1 + 0x3041) ∧
    (∀ c : Nat, 0x3041 ≤ c → c ≤ 0x3096 →
      validScalar (c - 0x3041 + 0x30A1) ∧ toKatakanaChar c = c - 0x3041 + 0x30A1) := by
  refine ⟨fun c h1 h2 => ⟨?_, ?_⟩, fun c h1 h2 => ⟨?_, ?_⟩,
    fun c h1 h2 => ⟨?_, ?_⟩, fun c h1 h2 => ⟨?_, ?_⟩⟩ <;>
    simp only [toHalfWidthChar, toFullWidthChar, toHiraganaChar,
      toKatakanaChar, validScalar] <;>
    first
      | omega
      | (split_ifs <;> omega)

/-- Witness for C9 at one concrete code point per range. -/
theorem c9_shift_fallback_unreachable_witness :
    (validScalar (0xFF01 - 0xFF01 + 0x21) ∧ toHalfWidthChar 0xFF01 = 0xFF01 - 0xFF01 + 0x21) ∧
    (validScalar (0x7E - 0x21 + 0xFF01) ∧ toFullWidthChar 0x7E = 0x7E - 0x21 + 0xFF01) ∧
    (validScalar (0x30A1 - 0x30A1 + 0x3041) ∧ toHiraganaChar 0x30A1 = 0x30A1 - 0x30A1 + 0x3041) ∧
    (validScalar (0x3096 - 0x3041 + 0x30A1) ∧ toKatakanaChar 0x3096 = 0x3096 - 0x3041 + 0x30A1) :=
  ⟨c9_shift_fallback_unreachable.1 0xFF01 (by decide) (by decide),
   c9_shift_fallback_unreachable.2.1 0x7E (by decide) (by decide),
   c9_shift_fallback_unreachable.2.2.1 0x30A1 (by decide) (by decide),
   c9_shift_fallback_unreachable.2.2.2 0x3096 (by decide) (by decide)⟩

/-- The Unicode `White_Space` code points, the set tested by Rust's
`char::is_whitespace`. -/
def isWhitespaceChar (c : Nat) : Bool :=
  decide ((0x09 ≤ c ∧ c ≤ 0x0D) ∨ c = 0x20 ∨ c = 0x85 ∨ c = 0xA0 ∨
    c = 0x1680 ∨ (0x2000 ≤ c ∧ c ≤ 0x200A) ∨ c = 0x2028 ∨ c = 0x2029 ∨
    c = 0x202F ∨ c = 0x205F ∨ c = 0x3000)

/-- Phase 1 of `normalize_whitespace`: any whitespace character (or the
ideographic space) becomes the ASCII space. -/
def nwMapChar (c : Nat) : Nat :=
  if isWhitespaceChar c || decide (c = 0x3000) then 0x20 else c

/-- `str::split_whitespace`, accumulating the current token in reverse:
maximal runs of non-whitespace characters, in order. -/
def splitWsAux : List Nat → List Nat → List (List Nat)
  | [], acc => if acc = [] then [] else [acc.reverse]
  | c :: rest, acc =>
    if isWhitespaceChar c then
      if acc = [] then splitWsAux rest []
      else acc.reverse :: splitWsAux rest []
    else splitWsAux rest (c :: acc)

/-- `str::split_whitespace` on a code-point list. -/
def splitWs (l : List Nat) : List (List Nat) :=
  splitWsAux l []

/-- `Vec::join(" ")`: concatenate the tokens with a single space between
consecutive tokens. -/
def joinSpace : List (List Nat) → List Nat
  | [] => []
  | [t] => t
  | t :: ts => t ++ 0x20 :: joinSpace ts

/-- `normalize_whitespace`: substitute all whitespace by spaces, then split
on whitespace and rejoin with single spaces. -/
def normalize_whitespace (s : List Nat) : List Nat :=
  joinSpace (splitWs (s.map nwMapChar))

lemma joinSpace_cons_cons (t u : List Nat) (ts : List (List Nat)) :
    joinSpace (t :: u :: ts) = t ++ 0x20 :: joinSpace (u :: ts) := rfl

lemma joinSpace_splitWsAux_length (l : List Nat) : ∀ acc : List Nat,
    (joinSpace (splitWsAux l acc)).length ≤ l.length + acc.length := by
  induction l with
  | nil =>
    intro acc
    simp only [splitWsAux]
    split_ifs with h
    · simp [joinSpace]
    · simp [joinSpace]
  | cons c rest ih =>
    intro acc
    simp only [splitWsAux]
    split_ifs with hws hacc
    · have := ih []
      simp only [List.length_nil, Nat.add_zero] at this
      simp only [List.length_cons]
      omega
    · cases h2 : splitWsAux rest [] with
      | nil =>
        have hj : joinSpace [acc.reverse] = acc.reverse := rfl
        rw [hj]
        simp only [List.length_cons, List.length_reverse]
        omega
      | cons u us =>
        rw [joinSpace_cons_cons]
        have := ih []
        rw [h2] at this
        simp only [List.length_nil, Nat.add_zero] at this
        simp only [List.length_append, List.length_cons, List.length_reverse]
        omega
    · have := ih (c :: acc)
      simp only [List.length_cons] at *
      omega

lemma splitWsAux_tokens (l : List Nat) : ∀ acc : List Nat,
    (∀ c ∈ acc, isWhitespaceChar c = false) →
    ∀ t ∈ splitWsAux l acc,
      t ≠ [] ∧ ∀ c ∈ t, isWhitespaceChar c = false := by
  induction l with
  | nil =>
    intro acc hacc t ht
    simp only [splitWsAux] at ht
    split_ifs at ht with h
    · simp at ht
    · simp only [List.mem_singleton] at ht
      subst ht
      refine ⟨by simpa using h, ?_⟩
      intro c hc
      exact hacc c (List.mem_reverse.mp hc)
  | cons c rest ih =>
    intro acc hacc t ht
    simp only [splitWsAux] at ht
    split_ifs at ht with hws hemp
    · exact ih [] (by simp) t ht
    · rcases List.mem_cons.mp ht with h | h
      · subst h
        refine ⟨by simpa using hemp, ?_⟩
        intro d hd
        exact hacc d (List.mem_reverse.mp hd)
      · exact ih [] (by simp) t h
    · refine ih (c :: acc) ?_ t ht
      intro d hd
      rcases List.mem_cons.mp hd with h | h
      · subst h
        simpa using hws
      · exact hacc d h

lemma splitWsAux_append (t : List Nat) : ∀ (l acc : List Nat),
    (∀ c ∈ t, isWhitespaceChar c = false) →
    splitWsAux (t ++ l) acc = splitWsAux l (t.reverse ++ acc) := by
  induction t with
  | nil => simp
  | cons c t ih =>
    intro l acc h
    have hc : isWhitespaceChar c = false := h c (by simp)
    simp only [List.cons_append, splitWsAux, hc, Bool.false_eq_true,
      if_false, List.append_eq]
    rw [ih l (c :: acc) (fun d hd => h d (by simp [hd]))]
    simp

lemma splitWs_joinSpace : ∀ ts : List (List Nat),
    (∀ t ∈ ts, t ≠ [] ∧ ∀ c ∈ t, isWhitespaceChar c = false) →
    splitWs (joinSpace ts) = ts := by
  intro ts
  induction ts with
  | nil => intro _; rfl
  | cons t ts ih =>
    intro hgood
    obtain ⟨htne, htws⟩ := hgood t (by simp)
    cases ts with
    | nil =>
      show splitWsAux (joinSpace [t]) [] = [t]
      have : joinSpace [t] = t ++ [] := by simp [joinSpace]
      rw [this, splitWsAux_append t [] [] htws]
      simp only [splitWsAux, List.append_nil]
      rw [if_neg (by simpa using htne)]
      simp
    | cons u ts' =>
      show splitWsAux (joinSpace (t :: u :: ts')) [] = t :: u :: ts'
      rw [joinSpace_cons_cons, splitWsAux_append t _ [] htws]
      have hws20 : isWhitespaceChar 0x20 = true := by decide
      simp only [splitWsAux, hws20, if_true, List.append_nil]
      rw [if_neg (by simpa using htne)]
      rw [List.reverse_reverse]
      have := ih (fun v hv => hgood v (by simp [hv]))
      exact congrArg (t :: ·) this

lemma nwMapChar_of_nonws (c : Nat) (h : isWhitespaceChar c = false) :
    nwMapChar c = c := by
  have h3000 : c ≠ 0x3000 := by
    intro hc
    subst hc
    simp [isWhitespaceChar] at h
  simp [nwMapChar, h, h3000]

lemma map_nwMapChar_joinSpace : ∀ ts : List (List Nat),
    (∀ t ∈ ts, ∀ c ∈ t, isWhitespaceChar c = false) →
    (joinSpace ts).map nwMapChar = joinSpace ts := by
  intro ts
  induction ts with
  | nil => intro _; rfl
  | cons t ts ih =>
    intro hgood
    have htok : t.map nwMapChar = t := by
      have := List.map_congr_left
        (fun a ha => nwMapChar_of_nonws a (hgood t (by simp) a ha))
      simpa using this
    cases ts with
    | nil => simpa [joinSpace] using htok
    | cons u ts' =>
      rw [joinSpace_cons_cons, List.map_append, htok, List.map_cons]
      have h20 : nwMapChar 0x20 = 0x20 := by decide
      rw [h20, ih (fun v hv => hgood v (by simp [hv]))]

/-- C10: `normalize_whitespace` is idempotent: its output contains only
non-whitespace tokens separated by single spaces, so normalizing again
changes nothing. -/
theorem c10_normalize_whitespace_idempotent (s : List Nat) :
    normalize_whitespace (normalize_whitespace s) = normalize_whitespace s := by
  unfold normalize_whitespace splitWs
  have hgood := splitWsAux_tokens (s.map nwMapChar) [] (by simp)
  rw [map_nwMapChar_joinSpace _ (fun t ht c hc => (hgood t ht).2 c hc)]
  have := splitWs_joinSpace _ hgood
  unfold splitWs at this
  rw [this]

lemma normalize_whitespace_length_le (s : List Nat) :
    (normalize_whitespace s).length ≤ s.length := by
  have := joinSpace_splitWsAux_length (s.map nwMapChar) []
  simpa [normalize_whitespace, splitWs] using this

/-- Voiced-mark combinations of `half_width_katakana_to_full_width`: the
(base, U+FF9E) match arms, base to precomposed voiced katakana. -/
def hwkVoiced (c : Nat) : Option Nat :=
  if c = 0xFF76 then some 0x30AC      -- ｶ ガ
  else if c = 0xFF77 then some 0x30AE -- ｷ ギ
  else if c = 0xFF78 then some 0x30B0 -- ｸ グ
  else if c = 0xFF79 then some 0x30B2 -- ｹ ゲ
  else if c = 0xFF7A then some 0x30B4 -- ｺ ゴ
  else if c = 0xFF7B then some 0x30B6 -- ｻ ザ
  else if c = 0xFF7C then some 0x30B8 -- ｼ ジ
  else if c = 0xFF7D then some 0x30BA -- ｽ ズ
  else if c = 0xFF7E then some 0x30BC -- ｾ ゼ
  else if c = 0xFF7F then some 0x30BE -- ｿ ゾ
  else if c = 0xFF80 then some 0x30C0 -- ﾀ ダ
  else if c = 0xFF81 then some 0x30C2 -- ﾁ ヂ
  else if c = 0xFF82 then some 0x30C5 -- ﾂ ヅ
  else if c = 0xFF83 then some 0x30C7 -- ﾃ デ
  else if c = 0xFF84 then some 0x30C9 -- ﾄ ド
  else if c = 0xFF8A then some 0x30D0 -- ﾊ バ
  else if c = 0xFF8B then some 0x30D3 -- ﾋ ビ
  else if c = 0xFF8C then some 0x30D6 -- ﾌ ブ
  else if c = 0xFF8D then some 0x30D9 -- ﾍ ベ
  else if c = 0xFF8E then some 0x30DC -- ﾎ ボ
  else if c = 0xFF73 then some 0x30F4 -- ｳ ヴ
  else none

/-- Semi-voiced-mark combinations of `half_width_katakana_to_full_width`:
the (base, U+FF9F) match arms, ha-row base to pa-row katakana. -/
def hwkSemiVoiced (c : Nat) : Option Nat :=
  if c = 0xFF8A then some 0x30D1      -- ﾊ パ
  else if c = 0xFF8B then some 0x30D4 -- ﾋ ピ
  else if c = 0xFF8C then some 0x30D7 -- ﾌ プ
  else if c = 0xFF8D then some 0x30DA -- ﾍ ペ
  else if c = 0xFF8E then some 0x30DD -- ﾎ ポ
  else none

/-- The lookahead decision of the combiner: combine with a following
U+FF9E via the voiced table, with a following U+FF9F via the semi-voiced
table, otherwise do not combine. -/
def hwkCombine (c next : Nat) : Option Nat :=
  if next = 0xFF9E then hwkVoiced c
  else if next = 0xFF9F then hwkSemiVoiced c
  else none

/-- The single-character fallback table of the combiner (the inner `match`
of the `_` arm); characters with no entry pass through unchanged. -/
def hwkSingle (c : Nat) : Nat :=
  if c = 0xFF66 then 0x30F2      -- ｦ ヲ
  else if c = 0xFF67 then 0x30A1 -- ｧ ァ
  else if c = 0xFF68 then 0x30A3 -- ｨ ィ
  else if c = 0xFF69 then 0x30A5 -- ｩ ゥ
  else if c = 0xFF6A then 0x30A7 -- ｪ ェ
  else if c = 0xFF6B then 0x30A9 -- ｫ ォ
  else if c = 0xFF6C then 0x30E3 -- ｬ ャ
  else if c = 0xFF6D then 0x30E5 -- ｭ ュ
  else if c = 0xFF6E then 0x30E7 -- ｮ ョ
  else if c = 0xFF6F then 0x30C3 -- ｯ ッ
  else if c = 0xFF70 then 0x30FC -- ｰ ー
  else if c = 0xFF71 then 0x30A2 -- ｱ ア
  else if c = 0xFF72 then 0x30A4 -- ｲ イ
  else if c = 0xFF73 then 0x30A6 -- ｳ ウ
  else if c = 0xFF74 then 0x30A8 -- ｴ エ
  else if c = 0xFF75 then 0x30AA -- ｵ オ
  else if c = 0xFF76 then 0x30AB -- ｶ カ
  else if c = 0xFF77 then 0x30AD -- ｷ キ
  else if c = 0xFF78 then 0x30AF -- ｸ ク
  else if c = 0xFF79 then 0x30B1 -- ｹ ケ
  else if c = 0xFF7A then 0x30B3 -- ｺ コ
  else if c = 0xFF7B then 0x30B5 -- ｻ サ
  else if c = 0xFF7C then 0x30B7 -- ｼ シ
  else if c = 0xFF7D then 0x30B9 -- ｽ ス
  else if c = 0xFF7E then 0x30BB -- ｾ セ
  else if c = 0xFF7F then 0x30BD -- ｿ ソ
  else if c = 0xFF80 then 0x30BF -- ﾀ タ
  else if c = 0xFF81 then 0x30C1 -- ﾁ チ
  else if c = 0xFF82 then 0x30C4 -- ﾂ ツ
  else if c = 0xFF83 then 0x30C6 -- ﾃ テ
  else if c = 0xFF84 then 0x30C8 -- ﾄ ト
  else if c = 0xFF85 then 0x30CA -- ﾅ ナ
  else if c = 0xFF86 then 0x30CB -- ﾆ ニ
  else if c = 0xFF87 then 0x30CC -- ﾇ ヌ
  else if c = 0xFF88 then 0x30CD -- ﾈ ネ
  else if c = 0xFF89 then 0x30CE -- ﾉ ノ
  else if c = 0xFF8A then 0x30CF -- ﾊ ハ
  else if c = 0xFF8B then 0x30D2 -- ﾋ ヒ
  else if c = 0xFF8C then 0x30D5 -- ﾌ フ
  else if c = 0xFF8D then 0x30D8 -- ﾍ ヘ
  else if c = 0xFF8E then 0x30DB -- ﾎ ホ
  else if c = 0xFF8F then 0x30DE -- ﾏ マ
  else if c = 0xFF90 then 0x30DF -- ﾐ ミ
  else if c = 0xFF91 then 0x30E0 -- ﾑ ム
  else if c = 0xFF92 then 0x30E1 -- ﾒ メ
  else if c = 0xFF93 then 0x30E2 -- ﾓ モ
  else if c = 0xFF94 then 0x30E4 -- ﾔ ヤ
  else if c = 0xFF95 then 0x30E6 -- ﾕ ユ
  else if c = 0xFF96 then 0x30E8 -- ﾖ ヨ
  else if c = 0xFF97 then 0x30E9 -- ﾗ ラ
  else if c = 0xFF98 then 0x30EA -- ﾘ リ
  else if c = 0xFF99 then 0x30EB -- ﾙ ル
  else if c = 0xFF9A then 0x30EC -- ﾚ レ
  else if c = 0xFF9B then 0x30ED -- ﾛ ロ
  else if c = 0xFF9C then 0x30EF -- ﾜ ワ
  else if c = 0xFF9D then 0x30F3 -- ﾝ ン
  else if c = 0xFF61 then 0x3002 -- ｡ 。
  else if c = 0xFF62 then 0x300C -- ｢ 「
  else if c = 0xFF63 then 0x300D -- ｣ 」
  else if c = 0xFF64 then 0x3001 -- ､ 、
  else if c = 0xFF65 then 0x30FB -- ･ ・
  else c

/-- `half_width_katakana_to_full_width`: left-to-right scan with one code
point of lookahead; a matching (base, voicing mark) pair is consumed as one
precomposed glyph, otherwise one character is emitted via the fallback
table. -/
def half_width_katakana_to_full_width : List Nat → List Nat
  | [] => []
  | [c] => [hwkSingle c]
  | c :: next :: rest =>
    match hwkCombine c next with
    | some f => f :: half_width_katakana_to_full_width rest
    | none => hwkSingle c :: half_width_katakana_to_full_width (next :: rest)

lemma hwk_length_le : ∀ s : List Nat,
    (half_width_katakana_to_full_width s).length ≤ s.length
  | [] => by simp [half_width_katakana_to_full_width]
  | [c] => by simp [half_width_katakana_to_full_width]
  | c :: next :: rest => by
    have ih1 := hwk_length_le rest
    have ih2 := hwk_length_le (next :: rest)
    cases h : hwkCombine c next with
    | some f =>
      simp only [half_width_katakana_to_full_width, h, List.length_cons]
      omega
    | none =>
      simp only [half_width_katakana_to_full_width, h, List.length_cons]
      simp only [List.length_cons] at ih2
      omega

lemma hwk_length_eq_of_no_combine : ∀ s : List Nat,
    s.Chain' (fun a b => hwkCombine a b = none) →
    (half_width_katakana_to_full_width s).length = s.length
  | [] => by simp [half_width_katakana_to_full_width]
  | [c] => by simp [half_width_katakana_to_full_width]
  | c :: next :: rest => by
    intro hch
    rw [List.chain'_cons] at hch
    have ih := hwk_length_eq_of_no_combine (next :: rest) hch.2
    simp only [half_width_katakana_to_full_width, hch.1, List.length_cons]
    simp only [List.length_cons] at ih
    omega

/-- C7: whenever the voiced table maps a base to a precomposed glyph, the
combiner consumes the base together with a following U+FF9E and emits that
glyph; likewise for the semi-voiced table with U+FF9F; in particular the
half-width ｳ with U+FF9E gives ヴ, the ka-row with U+FF9E gives ガギグゲゴ
and the ha-row with U+FF9F gives パピプペポ. -/
theorem c7_voiced_combination :
    (∀ b v rest, hwkVoiced b = some v →
      half_width_katakana_to_full_width (b :: 0xFF9E :: rest) =
        v :: half_width_katakana_to_full_width rest) ∧
    (∀ b v rest, hwkSemiVoiced b = some v →
      half_width_katakana_to_full_width (b :: 0xFF9F :: rest) =
        v :: half_width_katakana_to_full_width rest) ∧
    half_width_katakana_to_full_width [0xFF73, 0xFF9E] = [0x30F4] ∧
    half_width_katakana_to_full_width
        [0xFF76, 0xFF9E, 0xFF77, 0xFF9E, 0xFF78, 0xFF9E,
         0xFF79, 0xFF9E, 0xFF7A, 0xFF9E] =
      [0x30AC, 0x30AE, 0x30B0, 0x30B2, 0x30B4] ∧
    half_width_katakana_to_full_width
        [0xFF8A, 0xFF9F, 0xFF8B, 0xFF9F, 0xFF8C, 0xFF9F,
         0xFF8D, 0xFF9F, 0xFF8E, 0xFF9F] =
      [0x30D1, 0x30D4, 0x30D7, 0x30DA, 0x30DD] := by
  refine ⟨?_, ?_, by decide, by decide, by decide⟩
  · intro b v rest hv
    have hc : hwkCombine b 0xFF9E = some v := by
      simp [hwkCombine, hv]
    simp [half_width_katakana_to_full_width, hc]
  · intro b v rest hv
    have hc : hwkCombine b 0xFF9F = some v := by
      simp [hwkCombine, hv]
    simp [half_width_katakana_to_full_width, hc]

/-- Witness for C7 at the concrete pair ｶ + voiced mark and ﾎ + semi-voiced
mark. -/
theorem c7_voiced_combination_witness :
    half_width_katakana_to_full_width [0xFF76, 0xFF9E] = [0x30AC] ∧
    half_width_katakana_to_full_width [0xFF8E, 0xFF9F] = [0x30DD] :=
  ⟨c7_voiced_combination.1 0xFF76 0x30AC [] (by decide),
   c7_voiced_combination.2.1 0xFF8E 0x30DD [] (by decide)⟩

/-- Per-character action of `normalize_prolonged_sound`: wave dash U+301C
and fullwidth tilde U+FF5E become the prolonged sound mark U+30FC. -/
def normalizeProlongedChar (c : Nat) : Nat :=
  if c = 0x301C ∨ c = 0xFF5E then 0x30FC else c

/-- `normalize_prolonged_sound`: character-wise map over the input. -/
def normalize_prolonged_sound (s : List Nat) : List Nat :=
  s.map normalizeProlongedChar

/-- `add_dakuten`: the closed voicing table over the ka/sa/ta/ha-row
hiragana and katakana; anything else is returned unchanged. -/
def add_dakuten (c : Nat) : Nat :=
  if c = 0x304B then 0x304C      -- か が
  else if c = 0x304D then 0x304E -- き ぎ
  else if c = 0x304F then 0x3050 -- く ぐ
  else if c = 0x3051 then 0x3052 -- け げ
  else if c = 0x3053 then 0x3054 -- こ ご
  else if c = 0x3055 then 0x3056 -- さ ざ
  else if c = 0x3057 then 0x3058 -- し じ
  else if c = 0x3059 then 0x305A -- す ず
  else if c = 0x305B then 0x305C -- せ ぜ
  else if c = 0x305D then 0x305E -- そ ぞ
  else if c = 0x305F then 0x3060 -- た だ
  else if c = 0x3061 then 0x3062 -- ち ぢ
  else if c = 0x3064 then 0x3065 -- つ づ
  else if c = 0x3066 then 0x3067 -- て で
  else if c = 0x3068 then 0x3069 -- と ど
  else if c = 0x306F then 0x3070 -- は ば
  else if c = 0x3072 then 0x3073 -- ひ び
  else if c = 0x3075 then 0x3076 -- ふ ぶ
  else if c = 0x3078 then 0x3079 -- へ べ
  else if c = 0x307B then 0x307C -- ほ ぼ
  else if c = 0x30AB then 0x30AC -- カ ガ
  else if c = 0x30AD then 0x30AE -- キ ギ
  else if c = 0x30AF then 0x30B0 -- ク グ
  else if c = 0x30B1 then 0x30B2 -- ケ ゲ
  else if c = 0x30B3 then 0x30B4 -- コ ゴ
  else if c = 0x30B5 then 0x30B6 -- サ ザ
  else if c = 0x30B7 then 0x30B8 -- シ ジ
  else if c = 0x30B9 then 0x30BA -- ス ズ
  else if c = 0x30BB then 0x30BC -- セ ゼ
  else if c = 0x30BD then 0x30BE -- ソ ゾ
  else if c = 0x30BF then 0x30C0 -- タ ダ
  else if c = 0x30C1 then 0x30C2 -- チ ヂ
  else if c = 0x30C4 then 0x30C5 -- ツ ヅ
  else if c = 0x30C6 then 0x30C7 -- テ デ
  else if c = 0x30C8 then 0x30C9 -- ト ド
  else if c = 0x30CF then 0x30D0 -- ハ バ
  else if c = 0x30D2 then 0x30D3 -- ヒ ビ
  else if c = 0x30D5 then 0x30D6 -- フ ブ
  else if c = 0x30D8 then 0x30D9 -- ヘ ベ
  else if c = 0x30DB then 0x30DC -- ホ ボ
  else c

/-- The body of the `expand_iteration_marks` loop at one position: the
unvoiced marks U+309D/U+30FD repeat the previous character verbatim, the
voiced marks U+309E/U+30FE repeat it through `add_dakuten`; with no
previous character the mark itself is emitted. -/
def iterStep (prev : Option Nat) (c : Nat) : Nat :=
  if c = 0x309D ∨ c = 0x30FD then
    match prev with
    | some p => p
    | none => c
  else if c = 0x309E ∨ c = 0x30FE then
    match prev with
    | some p => add_dakuten p
    | none => c
  else c

/-- `expand_iteration_marks`: indexed scan over the materialized input; the
lookbehind at position `i > 0` is the raw input character at `i - 1`. -/
def expand_iteration_marks (s : List Nat) : List Nat :=
  (List.range s.length).map fun i =>
    iterStep (if i = 0 then none else some (s.getD (i - 1) 0)) (s.getD i 0)

lemma expand_getD (s : List Nat) (i : Nat) (h : i < s.length) :
    (expand_iteration_marks s).getD i 0 =
      iterStep (if i = 0 then none else some (s.getD (i - 1) 0)) (s.getD i 0) := by
  unfold expand_iteration_marks
  rw [List.getD_eq_getElem?_getD, List.getElem?_map, List.getElem?_range h]
  rfl

/-- C8: at any position `i > 0`, an unvoiced iteration mark U+309D/U+30FD is
replaced by the raw preceding input character and a voiced iteration mark
U+309E/U+30FE by its `add_dakuten` image; a mark at position 0 is emitted
unchanged; in particular on the inputs ゝ, いろゝ and かゞ the function
returns ゝ, いろろ and かが. -/
theorem c8_iteration_marks :
    (∀ (s : List Nat) (i : Nat), 0 < i → i < s.length →
      ((s.getD i 0 = 0x309D ∨ s.getD i 0 = 0x30FD) →
        (expand_iteration_marks s).getD i 0 = s.getD (i - 1) 0) ∧
      ((s.getD i 0 = 0x309E ∨ s.getD i 0 = 0x30FE) →
        (expand_iteration_marks s).getD i 0 = add_dakuten (s.getD (i - 1) 0))) ∧
    (∀ s : List Nat, 0 < s.length →
      (s.getD 0 0 = 0x309D ∨ s.getD 0 0 = 0x309E ∨
        s.getD 0 0 = 0x30FD ∨ s.getD 0 0 = 0x30FE) →
      (expand_iteration_marks s).getD 0 0 = s.getD 0 0) ∧
    expand_iteration_marks [0x309D] = [0x309D] ∧
    expand_iteration_marks [0x3044, 0x308D, 0x309D] = [0x3044, 0x308D, 0x308D] ∧
    expand_iteration_marks [0x304B, 0x309E] = [0x304B, 0x304C] := by
  refine ⟨?_, ?_, by decide, by decide, by decide⟩
  · intro s i h0 hi
    rw [expand_getD s i hi, if_neg (by omega)]
    constructor
    · intro hm
      rcases hm with h | h <;> rw [h] <;> simp [iterStep]
    · intro hm
      rcases hm with h | h <;> rw [h] <;> simp [iterStep]
  · intro s hlen hm
    rw [expand_getD s 0 hlen, if_pos rfl]
    rcases hm with h | h | h | h <;> rw [h] <;> simp [iterStep]

/-- Witness for C8 at the concrete inputs あゝ (mark at position 1) and
ゞ (mark at position 0). -/
theorem c8_iteration_marks_witness :
    (expand_iteration_marks [0x3042, 0x309D]).getD 1 0 =
        ([0x3042, 0x309D] : List Nat).getD 0 0 ∧
    (expand_iteration_marks [0x309E]).getD 0 0 =
        ([0x309E] : List Nat).getD 0 0 :=
  ⟨(c8_iteration_marks.1 [0x3042, 0x309D] 1 (by decide) (by decide)).1
      (by decide),
   c8_iteration_marks.2.1 [0x309E] (by decide) (by decide)⟩

/-- C6 counterexample: `normalize_whitespace` also produces strictly shorter
output (a single space collapses to the empty sequence), so strict shrinkage
is not confined to the diacritic combination in
`half_width_katakana_to_full_width`. -/
theorem c6_counterexample :
    (normalize_whitespace [0x20]).length < ([0x20] : List Nat).length := by
  decide

/-- C6 amended: every public transformation maps the input to an output of
equal or lesser length in code points; `to_half_width`, `to_full_width`,
`to_hiragana`, `to_katakana`, `normalize_prolonged_sound` and
`expand_iteration_marks` preserve the length exactly;
`half_width_katakana_to_full_width` preserves it whenever no adjacent pair
combines (so only diacritic combination shrinks it); and
`normalize_whitespace` may also shrink the input (collapsing and trimming
whitespace). -/
theorem c6_length_amended :
    (∀ s : List Nat, (to_half_width s).length = s.length) ∧
    (∀ s : List Nat, (to_full_width s).length = s.length) ∧
    (∀ s : List Nat, (to_hiragana s).length = s.length) ∧
    (∀ s : List Nat, (to_katakana s).length = s.length) ∧
    (∀ s : List Nat, (normalize_prolonged_sound s).length = s.length) ∧
    (∀ s : List Nat, (expand_iteration_marks s).length = s.length) ∧
    (∀ s : List Nat, (half_width_katakana_to_full_width s).length ≤ s.length) ∧
    (∀ s : List Nat, s.Chain' (fun a b => hwkCombine a b = none) →
      (half_width_katakana_to_full_width s).length = s.length) ∧
    (∀ s : List Nat, (normalize_whitespace s).length ≤ s.length) := by
  refine ⟨?_, ?_, ?_, ?_, ?_, ?_, hwk_length_le,
    hwk_length_eq_of_no_combine, normalize_whitespace_length_le⟩ <;>
    intro s <;>
    simp [to_half_width, to_full_width, to_hiragana, to_katakana,
      normalize_prolonged_sound, expand_iteration_marks]

/-- Witness for C6 (amended) at a concrete two-character input with no
combining pair. -/
theorem c6_length_amended_witness :
    (half_width_katakana_to_full_width [0xFF71, 0xFF72]).length =
      ([0xFF71, 0xFF72] : List Nat).length :=
  c6_length_amended.2.2.2.2.2.2.2.1 [0xFF71, 0xFF72]
    (by simp [List.chain'_cons, List.chain'_singleton, hwkCombine])

end JapaneseText
